import Mathlib

/-!
# Verification of the FrenchDeck ordered fixed collection

A shallow embedding of the playing-card deck defined in
`src/_posts/notes_data_model.py` (the `Card` namedtuple, the `FrenchDeck`
class with its `__init__`, `__len__` and `__getitem__` methods, the
iteration / reversed-iteration / slicing / sorting cells, and the
`spades_high` key function), together with proofs of the specified
properties.

Python integers are modelled by `Int` (or `Nat` where the source value is
a count), Python lists by `List`, and fallible operations (indexing that
can raise IndexError) by `Option`.
-/

namespace FrenchDeckModel

/-- The namedtuple `Card = collections.namedtuple("Card", ["rank", "suit"])`:
an immutable pair of a rank string and a suit string. -/
structure Card where
  rank : String
  suit : String
deriving DecidableEq, Repr

/-- The class attribute `ranks = [str(n) for n in range(2, 11)] + list("JQKA")`. -/
def ranks : List String := (List.range' 2 9).map (fun n => Nat.repr n) ++ ["J", "Q", "K", "A"]

/-- The class attribute `suits = "spades diamonds clubs hearts".split()`
(split on the space character; modelled on the character list of the
string literal, since whole-string splitting does not reduce in the
kernel). -/
def suits : List String := ("spades diamonds clubs hearts".toList.splitOn ' ').map List.asString

/-- The `FrenchDeck` class: its only instance attribute is the list
`self._cards`, set once by `__init__`. -/
structure FrenchDeck where
  _cards : List Card
deriving DecidableEq

/-- The constructor `FrenchDeck.__init__`:
`self._cards = [Card(rank, suit) for suit in self.suits for rank in self.ranks]`
(suits in the outer loop, ranks in the inner loop, so ranks iterate fastest). -/
def FrenchDeck.init : FrenchDeck :=
  ⟨(suits.map (fun suit => ranks.map (fun rank => Card.mk rank suit))).flatten⟩

/-- The notebook cell `deck = FrenchDeck()`: the one collection the
notebook constructs. -/
def deck : FrenchDeck := FrenchDeck.init

/-- The method `FrenchDeck.__len__`: `return len(self._cards)`. -/
def FrenchDeck.len (d : FrenchDeck) : Nat := d._cards.length

/-- Python list indexing `l[i]` with an integer index: a negative index is
normalized by adding `len(l)`; an index outside `[0, len(l))` after
normalization raises IndexError, modelled by `none`. -/
def pyListGet (l : List Card) (i : Int) : Option Card :=
  let j : Int := if i < 0 then i + l.length else i
  if j < 0 then none else l[j.toNat]?

/-- The method `FrenchDeck.__getitem__` applied to an integer position:
`return self._cards[position]`. -/
def FrenchDeck.getItem (d : FrenchDeck) (i : Int) : Option Card :=
  pyListGet d._cards i

/-- Normalization of one endpoint of a Python slice with positive step:
a negative endpoint has the length added and is then clamped below by 0;
a non-negative endpoint is clamped above by the length. -/
def pySliceIndex (len : Nat) (i : Int) : Nat :=
  if i < 0 then (i + len).toNat else min i.toNat len

/-- Python list slicing `l[start:stop]` (step 1): the elements at
normalized positions `start, ..., stop - 1`, in stored order. -/
def pyListSlice (l : List Card) (start stop : Int) : List Card :=
  (l.take (pySliceIndex l.length stop)).drop (pySliceIndex l.length start)

/-- The method `FrenchDeck.__getitem__` applied to a slice, as in the
`deck[:3]` cell (a missing start defaults to 0): `return self._cards[position]`
where the position is the slice, handled by list slicing. -/
def FrenchDeck.getSlice (d : FrenchDeck) (start stop : Int) : List Card :=
  pyListSlice d._cards start stop

/-- The iterator protocol Python derives from `__getitem__` for the
`for card in deck` cell: request positions 0, 1, 2, ... until IndexError.
The fuel argument bounds the recursion; every use supplies more fuel than
the deck has cards, so the traversal always ends at the `none`. -/
def iterAux (d : FrenchDeck) : Nat → Nat → List Card
  | 0, _ => []
  | fuel + 1, i =>
    match d.getItem (Int.ofNat i) with
    | none => []
    | some c => c :: iterAux d fuel (i + 1)

/-- Forward iteration `for card in deck`: elements at positions
0, 1, 2, ... until IndexError. -/
def FrenchDeck.iterate (d : FrenchDeck) : List Card :=
  iterAux d (d.len + 1) 0

/-- The `reversed(deck)` traversal: `reversed` uses `__len__` and
`__getitem__`, requesting positions `len-1, len-2, ..., 0`. -/
def revIterAux (d : FrenchDeck) : Nat → List Card
  | 0 => []
  | i + 1 =>
    match d.getItem (Int.ofNat i) with
    | none => []
    | some c => c :: revIterAux d i

/-- Reverse iteration `for reversed_card in reversed(deck)`. -/
def FrenchDeck.iterateReverse (d : FrenchDeck) : List Card :=
  revIterAux d d.len

/-- The Python builtin `sorted(iterable, key=key)`: a stable sort by the
key function, modelled by a stable insertion sort (`List.insertionSort`
inserts each element before the first existing element it may precede,
so elements with equal keys keep their original relative order, exactly
the guarantee the CPython Timsort gives). -/
def sortByKey (key : Card → Nat) (l : List Card) : List Card :=
  List.insertionSort (fun a b => key a ≤ key b) l

/-- The dict `suit_vals` with entries spades 3, hearts 2, diamonds 1,
clubs 0, modelled as an association list in insertion order. -/
def suit_vals : List (String × Nat) :=
  [("spades", 3), ("hearts", 2), ("diamonds", 1), ("clubs", 0)]

/-- The key function `spades_high(card)`:
`rank_value = FrenchDeck.ranks.index(card.rank)` followed by
`return rank_value * len(suit_vals) + suit_vals[card.suit]`.
In the source, `list.index` raises ValueError and dict access raises
KeyError off the 13 ranks / 4 suits; the source only ever applies
`spades_high` to cards of the deck, where both lookups succeed, so the
`getD` defaults are never reached there. -/
def spades_high (card : Card) : Nat :=
  let rank_value := (ranks.indexOf? card.rank).getD ranks.length
  rank_value * suit_vals.length + (suit_vals.lookup card.suit).getD 0

/-- The `repr` of a `Card` namedtuple value, for example
`Card(rank=\x272\x27, suit=\x27spades\x27)` (with ASCII apostrophes 0x27
around each field): the unambiguous developer-facing form, with each
string field shown by its own `repr` (quoted).  The rank and suit strings
of the deck contain no quotes or escapes, so their `repr` is exactly the
string between the apostrophes. -/
def cardRepr (c : Card) : String :=
  "Card(rank=\x27" ++ c.rank ++ "\x27, suit=\x27" ++ c.suit ++ "\x27)"

/-! ### Operations as state transformers

The invariant claims of the specification are about mutation, so each
public operation is also given in state-passing form
`FrenchDeck → result × FrenchDeck`.  The second component is the
collection after the call; the method bodies contain no assignment to
`self._cards` outside `__init__`, so each returns the collection it
received. -/

/-- The call `len(deck)` as a state transformer. -/
def lenOp (d : FrenchDeck) : Nat × FrenchDeck := (d.len, d)

/-- The call `deck[i]` as a state transformer. -/
def getItemOp (d : FrenchDeck) (i : Int) : Option Card × FrenchDeck := (d.getItem i, d)

/-- The traversal `for card in deck` as a state transformer. -/
def iterateOp (d : FrenchDeck) : List Card × FrenchDeck := (d.iterate, d)

/-- The traversal `reversed(deck)` as a state transformer. -/
def iterateReverseOp (d : FrenchDeck) : List Card × FrenchDeck := (d.iterateReverse, d)

/-- The call `sorted(deck, key=key)` as a state transformer: it builds a
new list and leaves the source collection untouched. -/
def sortOp (key : Card → Nat) (d : FrenchDeck) : List Card × FrenchDeck :=
  (sortByKey key d._cards, d)

/-- The call `choice(deck)` as a state transformer: `random.choice(seq)`
returns `seq[i]` for an index drawn uniformly from `[0, len(seq))` by the
external random source, here passed in as `r` reduced modulo the
length. -/
def choiceOp (d : FrenchDeck) (r : Nat) : Option Card × FrenchDeck :=
  (d.getItem (Int.ofNat (r % d.len)), d)

/-- The call `repr(card)` as a state transformer on the collection (it
reads no deck state at all). -/
def representOp (d : FrenchDeck) (c : Card) : String × FrenchDeck := (cardRepr c, d)

/-! ### Helper lemmas -/

/-- Python indexing at a non-negative index is plain list lookup. -/
lemma pyListGet_ofNat (l : List Card) (i : Nat) : pyListGet l (Int.ofNat i) = l[i]? := by
  have h0 : ¬((i : Int) < 0) := by omega
  simp only [pyListGet, Int.ofNat_eq_coe, if_neg h0, Int.toNat_natCast]

/-- Failure condition of the guarded lookup at an already normalized
index. -/
lemma pyIfGet_eq_none_iff (l : List Card) (j : Int) :
    (if j < 0 then none else l[j.toNat]?) = none ↔ j < 0 ∨ (l.length : Int) ≤ j := by
  by_cases hj : j < 0
  · simp [hj]
  · simp [hj, List.getElem?_eq_none_iff]
    omega

/-- Python indexing fails exactly when the normalized index is outside
`[0, len)`. -/
lemma pyListGet_eq_none_iff (l : List Card) (i : Int) :
    pyListGet l i = none ↔
      ((if i < 0 then i + l.length else i) < 0 ∨
        (l.length : Int) ≤ (if i < 0 then i + l.length else i)) :=
  pyIfGet_eq_none_iff l _

/-- Index -1 and index len - 1 address the same element of a Python
list. -/
lemma pyListGet_neg_one (l : List Card) : pyListGet l (-1) = pyListGet l ((l.length : Int) - 1) := by
  rcases l with _ | ⟨c, cs⟩
  · rfl
  · simp only [pyListGet, List.length_cons]
    norm_num
    split_ifs <;> first | rfl | omega | simp [List.getElem?_eq_getElem]

/-- The derived forward traversal returns the stored list, given enough
fuel. -/
lemma iterAux_eq (d : FrenchDeck) :
    ∀ (fuel i : Nat), d.len - i < fuel → iterAux d fuel i = d._cards.drop i := by
  intro fuel
  induction fuel with
  | zero => intro i h; omega
  | succ fuel ih =>
    intro i h
    rw [iterAux, FrenchDeck.getItem, pyListGet_ofNat]
    cases h' : d._cards[i]? with
    | none =>
      rw [List.getElem?_eq_none_iff] at h'
      rw [List.drop_eq_nil_of_le h']
    | some c =>
      rw [List.getElem?_eq_some_iff] at h'
      obtain ⟨hlt, hc⟩ := h'
      rw [ih (i + 1) (by simp [FrenchDeck.len] at h ⊢; omega)]
      rw [← List.getElem_cons_drop d._cards i hlt, hc]

/-- Forward iteration produces exactly the stored sequence. -/
lemma iterate_eq (d : FrenchDeck) : d.iterate = d._cards := by
  rw [FrenchDeck.iterate, iterAux_eq d (d.len + 1) 0 (by omega), List.drop_zero]

/-- The descending traversal returns the reversed prefix it has
covered. -/
lemma revIterAux_eq (d : FrenchDeck) :
    ∀ n, n ≤ d.len → revIterAux d n = (d._cards.take n).reverse := by
  intro n
  induction n with
  | zero => intro _; rw [revIterAux, List.take_zero, List.reverse_nil]
  | succ n ih =>
    intro h
    have hn : n < d._cards.length := h
    rw [revIterAux, FrenchDeck.getItem, pyListGet_ofNat, List.getElem?_eq_getElem hn,
      ih (Nat.le_of_succ_le h), List.take_succ, List.getElem?_eq_getElem hn]
    rw [Option.toList_some, List.reverse_append, List.reverse_singleton, List.singleton_append]

/-- Reverse iteration produces exactly the reversed stored sequence. -/
lemma iterateReverse_eq (d : FrenchDeck) : d.iterateReverse = d._cards.reverse := by
  rw [FrenchDeck.iterateReverse, revIterAux_eq d d.len le_rfl]
  rw [FrenchDeck.len, List.take_length]

/-! ### The claimed properties -/

/-- C1: for the constructed collection, Length() returns 52, the size of
the cross product of the 13 ranks and 4 suits. -/
theorem deck_length_eq_52 :
    (lenOp deck).1 = 52 ∧ deck.len = 52 ∧ ranks.length = 13 ∧ suits.length = 4 ∧
      deck.len = ranks.length * suits.length := by
  decide

/-- C2: construction iterates suits in the outer loop and ranks in the
inner loop (ranks fastest), so position 0 holds the pair
(rank "2", suit "spades"); indeed the first 13 cards all carry suit
"spades" and run through the 13 ranks in order. -/
theorem deck_first_card :
    deck.getItem 0 = some (Card.mk "2" "spades") ∧
      (deck._cards.take 13).all (fun c => c.suit = "spades") = true ∧
      (deck._cards.take 13).map Card.rank = ranks := by
  decide

/-- C3: ElementAt fails with IndexOutOfRange exactly when the index,
after negative-index normalization, lies outside `[0, Length())`; in
particular ElementAt(Length()) fails, and the collection is returned
unchanged by the call. -/
theorem getItem_out_of_range (d : FrenchDeck) (i : Int) :
    d.getItem d.len = none ∧
      (d.getItem i = none ↔
        ((if i < 0 then i + d.len else i) < 0 ∨
          (d.len : Int) ≤ (if i < 0 then i + d.len else i))) ∧
      (getItemOp d i).2 = d := by
  refine ⟨?_, pyListGet_eq_none_iff d._cards i, rfl⟩
  have h : d.getItem (Int.ofNat d.len) = none := by
    rw [FrenchDeck.getItem, pyListGet_ofNat]
    simp [FrenchDeck.len]
  exact h

/-- C4: every public operation (Length, ElementAt, Iterate,
IterateReverse, Sort, RandomElement, Represent) returns the collection
unchanged, so its length is constant and ElementAt at a fixed index is
stable across repeated calls; Sort builds a new sequence without
mutating the source. -/
theorem operations_leave_deck_unchanged (d : FrenchDeck) (i : Int) (key : Card → Nat)
    (r : Nat) (c : Card) :
    (lenOp d).2 = d ∧ (getItemOp d i).2 = d ∧ (iterateOp d).2 = d ∧
      (iterateReverseOp d).2 = d ∧ (sortOp key d).2 = d ∧ (choiceOp d r).2 = d ∧
      (representOp d c).2 = d ∧
      (getItemOp ((getItemOp d i).2) i).1 = (getItemOp d i).1 ∧
      (lenOp ((sortOp key d).2)).1 = (lenOp d).1 :=
  ⟨rfl, rfl, rfl, rfl, rfl, rfl, rfl, rfl, rfl⟩

/-- C5: ElementAt(-1) equals ElementAt(Length() - 1): a negative index
addresses elements from the end. -/
theorem getItem_neg_one_eq_last (d : FrenchDeck) :
    d.getItem (-1) = d.getItem ((d.len : Int) - 1) :=
  pyListGet_neg_one d._cards

/-- C6: slicing with the range `[0, 3)` (the `deck[:3]` cell) returns
exactly the first 3 elements in their original stored order. -/
theorem slice_first_three :
    deck.getSlice 0 3 = deck._cards.take 3 ∧
      deck.getSlice 0 3 =
        [Card.mk "2" "spades", Card.mk "3" "spades", Card.mk "4" "spades"] := by
  decide

/-- C7: forward and reverse iteration are exact opposites: reversing the
sequence produced by IterateReverse yields the sequence produced by
Iterate. -/
theorem reverse_iteration_opposite (d : FrenchDeck) :
    d.iterateReverse.reverse = d.iterate := by
  rw [iterate_eq, iterateReverse_eq, List.reverse_reverse]

/-- C8: Sort by a key function is idempotent: sorting an already-sorted
sequence again by the same key yields an identical sequence (the stable
sort leaves a sorted sequence, ties included, exactly in place). -/
theorem sortByKey_idempotent (key : Card → Nat) (l : List Card) :
    sortByKey key (sortByKey key l) = sortByKey key l := by
  haveI : IsTotal Card (fun a b => key a ≤ key b) := ⟨fun a b => Nat.le_total _ _⟩
  haveI : IsTrans Card (fun a b => key a ≤ key b) := ⟨fun _ _ _ h1 h2 => Nat.le_trans h1 h2⟩
  exact (List.sorted_insertionSort _ l).insertionSort_eq

/-- C9: Represent is injective on attribute pairs: any two distinct cards
of the deck have distinct unambiguous textual forms. -/
theorem cardRepr_injective_on_deck :
    ∀ c1 ∈ deck._cards, ∀ c2 ∈ deck._cards, c1 ≠ c2 → cardRepr c1 ≠ cardRepr c2 := by
  decide

/-- Witness for C9 at two concrete cards of the deck. -/
theorem cardRepr_injective_on_deck_witness :
    cardRepr (Card.mk "2" "spades") ≠ cardRepr (Card.mk "A" "hearts") :=
  cardRepr_injective_on_deck (Card.mk "2" "spades") (by decide) (Card.mk "A" "hearts")
    (by decide) (by decide)

/-- C10: the key function spades_high gives the 52 cards 52 pairwise
distinct values, all below 52, with minimum 0 at (rank "2", suit "clubs")
and maximum 51 at (rank "A", suit "spades"), so sorting by it has no
ties. -/
theorem spades_high_distinct :
    (deck._cards.map spades_high).Nodup ∧
      (deck._cards.map spades_high).length = 52 ∧
      (∀ c ∈ deck._cards, spades_high c < 52) ∧
      spades_high (Card.mk "2" "clubs") = 0 ∧
      spades_high (Card.mk "A" "spades") = 51 := by
  decide

end FrenchDeckModel
